import Mathlib

/-!
Verification development for the Lleam agent control loop.

The Python sources (`main.py`, `tools.py`) are shallowly embedded below:

* Tool parameters (`dict` values in Python) are modelled as association
  lists `List (String × Value)`, where `Value` covers the string and
  integer values that appear in tool inputs.  Python's structural
  equality on `(tool_name, parameters)` pairs becomes equality of these
  lists.
* Sampling temperature (a Python `float` that is only ever assigned the
  exact constants `0.0` and `1.0` and compared with `==`/`>`) is
  modelled as `ℚ`.
* File contents handled character-by-character (`str_replace`) are
  modelled as `List Char`; file contents that are only stored and
  measured (`write_file`, `final_output`) remain `String`.
* Python's `result.startswith("Error")` is modelled by `py_startswith`.
* The output directory used by `final_output` is modelled as an
  association list from a numeric suffix to file content, index `0`
  standing for `final_output.md` and index `k ≥ 1` for
  `final_output.md{k}` (the Python code builds these names with an
  f-string; only files of this shape are ever touched by the tool).
-/

namespace Lleam

/-- A value appearing in a tool-call parameter mapping: tool inputs in the
source are JSON objects whose values are strings or integers (the
`occurrence` parameter of `str_replace`). -/
inductive Value where
  | str (s : String)
  | int (i : Int)
deriving DecidableEq, Repr

/-- A tool parameter mapping, `c.input` in `main.py`. -/
abbrev Params := List (String × Value)

/-- One entry of the error history: the `(c.name, c.input)` pairs appended
by `process_message_content` in `main.py`. -/
abbrev ErrEntry := String × Params

/-- Python's `l[-n:]`, as used for `recent_errors = updated_history[-N:]`
(always called with `n ≥ 1` in the source). -/
def lastN {α : Type} (n : Nat) (l : List α) : List α :=
  l.drop (l.length - n)

/-- Python's `all(e == recent_errors[0] for e in recent_errors)`. -/
def all_identical {α : Type} [DecidableEq α] : List α → Bool
  | [] => true
  | e :: es => es.all (fun x => decide (x = e))

/-- `handle_error_temperature_adjustment` from `main.py` (lines 455-507).
The last `if` in the source tests the *parameter* `temperature`, not the
locally updated `new_temperature`, which the embedding mirrors. -/
def handle_error_temperature_adjustment (current_errors error_history : List ErrEntry)
    (has_tool_use : Bool) (temperature : ℚ)
    (repeated_error_threshold : Nat := 3) : ℚ × List ErrEntry :=
  let s1 : ℚ × List ErrEntry :=
    if current_errors ≠ [] then
      let updated_history := error_history ++ current_errors
      if repeated_error_threshold ≤ updated_history.length ∧
          all_identical (lastN repeated_error_threshold updated_history) = true then
        if temperature = 0 then (1, updated_history) else (temperature, updated_history)
      else (temperature, updated_history)
    else if has_tool_use = true ∧ current_errors = [] then
      if 0 < temperature then (0, []) else (temperature, error_history)
    else (temperature, error_history)
  if has_tool_use = false ∧ 0 < temperature then (0, []) else s1

/-- Python's `s.startswith(p)`, used by both `process_message_content`
(`result.startswith("Error")`) and the claims about error signalling. -/
def py_startswith (s p : String) : Bool :=
  p.toList.isPrefixOf s.toList

/-- One content block of an LLM response (`message.content` in `main.py`).
Blocks whose `type` is neither `"text"` nor `"tool_use"` are not inspected
by `process_message_content` and are collected in `other`. -/
inductive ContentBlock where
  | text (s : String)
  | toolUse (name : String) (input : Params) (id : String)
  | other
deriving DecidableEq, Repr

/-- Outcome of one `execute_tool` invocation as observed by
`process_message_content`: either a returned result string, or an
exception escaping `execute_tool` (the `except Exception` branch). -/
inductive ExecOutcome where
  | ok (result : String)
  | raised (msg : String)
deriving DecidableEq, Repr

/-- The tool executor, abstracting `tools.execute_tool` together with the
environment (filesystem, subprocesses) it acts on. -/
abbrev Executor := String → Params → ExecOutcome

/-- A `tool_result` block synthesized by `process_message_content`.
The source omits the `is_error` key on the non-raising path; absence is
modelled by `is_error = false`. -/
structure ToolResult where
  tool_use_id : String
  content : String
  is_error : Bool
deriving DecidableEq, Repr

/-- Return value of `process_message_content`. -/
structure ProcessResult where
  tool_results : List ToolResult
  has_tool_use : Bool
  current_errors : List ErrEntry
  coverage_report_called : Bool
  final_output_called : Bool
deriving DecidableEq, Repr

/-- The body of the `for c in message_content` loop of
`process_message_content` (`main.py` lines 398-450). -/
def process_step (ex : Executor) (acc : ProcessResult) (c : ContentBlock) : ProcessResult :=
  match c with
  | .text _ => acc
  | .other => acc
  | .toolUse name input id =>
    let acc := { acc with
      has_tool_use := true
      coverage_report_called := acc.coverage_report_called || name == "run_coverage_report"
      final_output_called := acc.final_output_called || name == "final_output" }
    match ex name input with
    | .ok result =>
      { acc with
        tool_results := acc.tool_results ++ [⟨id, result, false⟩]
        current_errors :=
          if py_startswith result "Error" then acc.current_errors ++ [(name, input)]
          else acc.current_errors }
    | .raised m =>
      { acc with
        current_errors := acc.current_errors ++ [(name, input)]
        tool_results := acc.tool_results ++ [⟨id, "Error executing tool: " ++ m, true⟩] }

/-- `process_message_content` from `main.py` (lines 378-452): a left fold
over the content blocks. -/
def process_message_content (ex : Executor) (blocks : List ContentBlock) : ProcessResult :=
  blocks.foldl (process_step ex) ⟨[], false, [], false, false⟩

/-- `TOOL_EXAMPLES.get(tool_name, [])` from `tools.py` (lines 86-110). -/
def TOOL_EXAMPLES_get (name : String) : List String :=
  if name = "call_shell" then
    ["\x7b\"name\": \"call_shell\", \"input\": \x7b\"command\": \"<YOUR COMMAND HERE>\"\x7d\x7d",
     "\x7b\"name\": \"call_shell\", \"input\": \x7b\"command\": \"ls -la\"\x7d\x7d",
     "\x7b\"name\": \"call_shell\", \"input\": \x7b\"command\": \"grep -r \x27TODO\x27 *.py\"\x7d\x7d",
     "\x7b\"name\": \"call_shell\", \"input\": \x7b\"command\": \"cat config.json\"\x7d\x7d"]
  else if name = "write_file" then
    ["\x7b\"name\": \"write_file\", \"input\": \x7b\"path\": \"<FILE PATH>\", \"content\": \"<NEW CONTENT>\"\x7d\x7d",
     "\x7b\"name\": \"write_file\", \"input\": \x7b\"path\": \"test.py\", \"content\": \"print(\x27hello\x27)\"\x7d\x7d",
     "\x7b\"name\": \"write_file\", \"input\": \x7b\"path\": \"~/notes.txt\", \"content\": \"Meeting at 3pm\"\x7d\x7d",
     "\x7b\"name\": \"write_file\", \"input\": \x7b\"path\": \"config.json\", \"content\": \"\x7b\\\"debug\\\": true\x7d\"\x7d\x7d"]
  else if name = "str_replace" then
    ["\x7b\"name\": \"str_replace\", \"input\": \x7b\"path\": \"<FILE PATH>\", \"old_str\": \"<CONTENT TO REPLACE>\", \"new_str\": \"<NEW CONTENT>\"\x7d\x7d",
     "\x7b\"name\": \"str_replace\", \"input\": \x7b\"path\": \"main.py\", \"old_str\": \"def old()\", \"new_str\": \"def new()\"\x7d\x7d",
     "\x7b\"name\": \"str_replace\", \"input\": \x7b\"path\": \"config.py\", \"old_str\": \"DEBUG = False\", \"new_str\": \"DEBUG = True\"\x7d\x7d",
     "\x7b\"name\": \"str_replace\", \"input\": \x7b\"path\": \"test.py\", \"old_str\": \"import os\", \"new_str\": \"import sys\", \"occurrence\": 1\x7d\x7d"]
  else if name = "final_output" then
    ["\x7b\"name\": \"final_output\", \"input\": \x7b\"summary\": \"# Task Complete\\n\\nFixed bug in auth module.\"\x7d\x7d",
     "\x7b\"name\": \"final_output\", \"input\": \x7b\"summary\": \"# Review Complete\\n\\nCode looks good. Approved.\"\x7d\x7d",
     "\x7b\"name\": \"final_output\", \"input\": \x7b\"summary\": \"# Analysis Done\\n\\nFound 3 issues:\\n- Missing tests\\n- Unused imports\\n- Type hints needed\"\x7d\x7d"]
  else []

/-- `examples_str = '\n'.join(examples) if examples else 'No examples available'`. -/
def examples_str_for (name : String) : String :=
  if TOOL_EXAMPLES_get name ≠ [] then String.intercalate "\n" (TOOL_EXAMPLES_get name)
  else "No examples available"

/-- Rendering of one parameter value inside Python's `str(dict)`. -/
def value_repr : Value → String
  | .str s => "\x27" ++ s ++ "\x27"
  | .int i => toString i

/-- Python's `str` of the parameter dictionary, as interpolated into the
corrective message (`Failed parameters: {tool_params}`). -/
def pyStrOfParams (ps : Params) : String :=
  "\x7b" ++ String.intercalate ", " (ps.map fun p => "\x27" ++ p.1 ++ "\x27: " ++ value_repr p.2) ++ "\x7d"

/-- The corrective user-role message injected by `execute_single_task`
when the tool-failure threshold is hit (`main.py` lines 165-170), with
`TOOL_FAILURE_THRESHOLD = 5` interpolated. -/
def lockout_message (tool_name : String) (tool_params : Params) : String :=
  "You have attempted the same tool call 5 times with identical parameters and it has failed each time.\n                    Tool: "
    ++ tool_name
    ++ "\n                    Failed parameters: "
    ++ pyStrOfParams tool_params
    ++ "\n                    Please explain what you\x27re trying to do and consider an alternative approach. When I re-enable tools, here are examples of correct usage:\n                    "
    ++ examples_str_for tool_name
    ++ "\n                    What are you trying to accomplish? Let\x27s think about this differently."

/-- Reminder message injected when `run_coverage_report` was required but
never called (`main.py` lines 226-231; adjacent string literals
concatenate). -/
def coverage_reminder : String :=
  "You have not called the run_coverage_report tool yet. According to the system prompt, you MUST call this tool when you have been asked to write code. Please run the coverage report now before completing."

/-- An entry of the conversation history (`messages` in `main.py`):
an assistant turn carrying content blocks, a synthesized user turn
carrying a plain string, or a user turn carrying tool results. -/
inductive Msg where
  | assistant (content : List ContentBlock)
  | userText (s : String)
  | userToolResults (rs : List ToolResult)
deriving DecidableEq, Repr

/-- An LLM response as consumed by the loop body of
`execute_single_task`: the content blocks and the stop reason (a string
in the provider API; unknown strings fall into the final `else`). -/
structure LLMResp where
  content : List ContentBlock
  stop_reason : String
deriving DecidableEq, Repr

/-- The per-session mutable state of `execute_single_task`
(`main.py` lines 80-91). -/
structure DriverState where
  messages : List Msg
  temperature : ℚ
  error_history : List ErrEntry
  disable_tools_next_call : Bool
  coverage_report_called : Bool
  final_output_called : Bool
deriving DecidableEq, Repr

/-- Initial session state: temperature `0.0`, empty error history, all
flags cleared (`main.py` lines 80-91). -/
def init_driver_state (messages : List Msg) : DriverState :=
  { messages := messages
    temperature := 0
    error_history := []
    disable_tools_next_call := false
    coverage_report_called := false
    final_output_called := false }

/-- Whether the next `send_message` call is issued with tools enabled
(`allow_tools` at the top of the loop, `main.py` lines 94-100). -/
def tools_enabled_for_call (st : DriverState) : Bool :=
  !st.disable_tools_next_call

/-- The hard-lockout condition of `main.py` lines 150-152: history length
reached `TOOL_FAILURE_THRESHOLD = 5` and the most recent 5 entries are
identical. -/
def lockout_triggered (error_history : List ErrEntry) : Bool :=
  5 ≤ error_history.length && all_identical (lastN 5 error_history)

/-- Result of one iteration of the `while True` loop in
`execute_single_task`: continue looping with a new state, or leave the
loop.  `incomplete` covers every `break` (the function then returns
`"Task execution incomplete"`); `done_player` is the `end_turn` player
path (which goes on to request a summary in a separate, tool-free LLM
call); `done_coach`/`done_coach_missing_final` are the coach paths;
`invalid_mode` is the final `else` of the mode dispatch. -/
inductive DriverOutcome where
  | next (st : DriverState)
  | incomplete
  | done_player (st : DriverState)
  | done_coach (st : DriverState)
  | done_coach_missing_final
  | invalid_mode
deriving DecidableEq, Repr

/-- The tail of the loop body after the hard-lockout check (`main.py`
lines 183-252): update tracking flags, feed back tool results, retry on
errors, or dispatch on the stop reason.

`should_call_coverage` stands for `should_call_coverage_report(message_text)`.
Modelled from the spec: `should_call_coverage_report` is referenced by
`main.py` but its definition is not part of the sources under `src/`;
the spec describes it only as "a workflow-specific completion
precondition", so it is abstracted into a Boolean parameter. -/
def driver_step_rest (should_call_coverage : Bool) (mode : String)
    (message : LLMResp) (pr : ProcessResult) (st : DriverState) : DriverOutcome :=
  let st := { st with
    coverage_report_called := st.coverage_report_called || pr.coverage_report_called
    final_output_called := st.final_output_called || pr.final_output_called }
  if pr.has_tool_use && !pr.tool_results.isEmpty then
    .next { st with messages := st.messages ++ [.userToolResults pr.tool_results] }
  else if !pr.current_errors.isEmpty then
    .next st
  else if message.stop_reason = "max_tokens" then .incomplete
  else if message.stop_reason = "model_context_window_exceeded" then .incomplete
  else if message.stop_reason = "end_turn" then
    if !st.coverage_report_called && should_call_coverage then
      .next { st with messages := st.messages ++ [.userText coverage_reminder] }
    else if mode = "player" then .done_player st
    else if mode = "coach" then
      if !st.final_output_called then .done_coach_missing_final else .done_coach st
    else .invalid_mode
  else .incomplete

/-- One iteration of the `while True` loop of `execute_single_task`
(`main.py` lines 93-252), given the provider's response `resp` to the
`send_message` call issued at the top of the iteration (that call is made
with tools enabled iff `tools_enabled_for_call st`; the latch is then
reset).  `REPEATED_ERROR_THRESHOLD = 2` is wired into the call to
`handle_error_temperature_adjustment` exactly as in the source. -/
def driver_step (ex : Executor) (should_call_coverage : Bool) (mode : String)
    (st : DriverState) (resp : Option LLMResp) : DriverOutcome :=
  match resp with
  | none => .incomplete
  | some message =>
    let st1 : DriverState := { st with
      disable_tools_next_call := false
      messages := st.messages ++ [.assistant message.content] }
    let pr := process_message_content ex message.content
    let adj := handle_error_temperature_adjustment pr.current_errors st.error_history
      pr.has_tool_use st.temperature 2
    let st2 : DriverState := { st1 with temperature := adj.1, error_history := adj.2 }
    if lockout_triggered st2.error_history then
      let e0 := (lastN 5 st2.error_history).headD ("", [])
      .next { st2 with
        disable_tools_next_call := true
        error_history := []
        temperature := 0
        messages := st2.messages ++ [.userText (lockout_message e0.1 e0.2)] }
    else
      driver_step_rest should_call_coverage mode message pr st2

/-- The states a session can be in: the initial state for any starting
conversation, plus everything reachable through loop iterations. -/
inductive DriverReachable (ex : Executor) (should_call_coverage : Bool) (mode : String) :
    DriverState → Prop where
  | init (messages : List Msg) :
      DriverReachable ex should_call_coverage mode (init_driver_state messages)
  | step (st st' : DriverState) (resp : Option LLMResp) :
      DriverReachable ex should_call_coverage mode st →
      driver_step ex should_call_coverage mode st resp = .next st' →
      DriverReachable ex should_call_coverage mode st'

/-! ### The output directory used by `final_output` (`tools.py`)

Index `0` stands for `final_output.md`, index `k ≥ 1` for
`final_output.md{k}` — the only filenames `final_output` ever touches. -/

/-- The output directory: an association list from numeric suffix to file
content.  `dirLookup d k` is `Path.exists` plus `read` for the file with
suffix `k`. -/
abbrev OutDir := List (Nat × String)

/-- Existence / content query for suffix `k`. -/
def dirLookup (d : OutDir) (k : Nat) : Option String :=
  List.lookup k d

/-- Remove the file with suffix `k` (part of a rename). -/
def dirRemove (d : OutDir) (k : Nat) : OutDir :=
  d.filter (fun p => decide (p.1 ≠ k))

/-- Create or overwrite the file with suffix `k`. -/
def dirSet (d : OutDir) (k : Nat) (v : String) : OutDir :=
  (k, v) :: dirRemove d k

/-- `old_path.rename(new_path)` guarded by `old_path.exists()`
(`tools.py` lines 334-338): move the content at suffix `i` to suffix `j`. -/
def dirRename (d : OutDir) (i j : Nat) : OutDir :=
  match dirLookup d i with
  | some v => dirSet (dirRemove d i) j v
  | none => d

/-- The `while True` search for the first free version number
(`tools.py` lines 326-331), made structural with a fuel argument:
starting at `k`, return the first suffix whose file does not exist.
At most `d.length` suffixes exist, so fuel `d.length + 1` always
suffices to reach the first gap, exactly as the unbounded loop does. -/
def find_version_num_aux (d : OutDir) : Nat → Nat → Nat
  | 0, k => k
  | fuel + 1, k => if (dirLookup d k).isSome then find_version_num_aux d fuel (k + 1) else k

/-- `version_num` after the search loop of `final_output`. -/
def find_version_num (d : OutDir) : Nat :=
  find_version_num_aux d (d.length + 1) 1

/-- `for i in range(version_num - 1, 0, -1): ... rename` (`tools.py`
lines 333-338): shift versions `n, n-1, …, 1` up by one, highest first. -/
def rotate_versions (d : OutDir) : Nat → OutDir
  | 0 => d
  | i + 1 => rotate_versions (dirRename d (i + 1) (i + 2)) i

/-- The file-system effect of a successful `final_output(summary)` call
(`tools.py` lines 322-344): rotate any existing output file chain, then
write the new summary to the unsuffixed name. -/
def final_output_files (d : OutDir) (summary : String) : OutDir :=
  let d1 :=
    if (dirLookup d 0).isSome then
      let version_num := find_version_num d
      let d2 := rotate_versions d (version_num - 1)
      dirRename d2 0 1
    else d
  dirSet d1 0 summary

/-- Module-level mutable state of `tools.py` touched by `final_output`:
the `LAST_FINAL_OUTPUT` global and the output directory. -/
structure FinalOutputGlobals where
  last_final_output : Option String
  dir : OutDir
deriving DecidableEq, Repr

/-- Outcome of the file-system interactions of a tool: all operations
succeed, or some operation raises with message `msg` (caught by the
tool's `except Exception` clause). -/
inductive FsOutcome where
  | ok
  | raised (msg : String)
deriving DecidableEq, Repr

/-- `final_output` from `tools.py` (lines 299-348).  The global
`LAST_FINAL_OUTPUT` is assigned first, before any file operation; when a
file operation raises, the directory is left in an arbitrary intermediate
state `fail_dir` and the error string is returned. -/
def final_output (g : FinalOutputGlobals) (summary : String) (io : FsOutcome)
    (fail_dir : OutDir) (work_dir : String) : FinalOutputGlobals × String :=
  let g := { g with last_final_output := some summary }
  match io with
  | .ok =>
    ({ g with dir := final_output_files g.dir summary },
     "Successfully saved final output to " ++ work_dir ++ "/final_output.md")
  | .raised m => ({ g with dir := fail_dir }, "Error saving final output: " ++ m)

/-- The directory produced by a sequence of successful `final_output`
writes starting from an empty output directory. -/
def run_final_outputs (ss : List String) : OutDir :=
  ss.foldl final_output_files []

/-! ### `str_replace` (`tools.py` lines 209-259)

File contents are `List Char`.  `pySplitF` is Python's
`content.split(old_str)` for a nonempty separator — leftmost,
non-overlapping — made structural with a fuel argument bounded by the
content length (each step consumes at least one character, so fuel
`s.length` suffices). -/

/-- Python `content.split(sep)` for nonempty `sep`, with fuel. -/
def pySplitF (sep : List Char) : Nat → List Char → List (List Char)
  | _, [] => [[]]
  | 0, c :: rest => [c :: rest]
  | fuel + 1, c :: rest =>
    if sep.isPrefixOf (c :: rest) then
      [] :: pySplitF sep fuel (rest.drop (sep.length - 1))
    else
      (pySplitF sep fuel rest).modifyHead (fun h => c :: h)

/-- Python `content.split(sep)` for nonempty `sep`. -/
def pySplit (sep s : List Char) : List (List Char) :=
  pySplitF sep s.length s

/-- Python `old_str in content` (substring containment). -/
def pyIn (old s : List Char) : Bool :=
  (List.range (s.length + 1)).any (fun i => old.isPrefixOf (s.drop i))

/-- Python `content.count(old_str)`: non-overlapping occurrence count;
an empty pattern matches at every position plus once at the end. -/
def pyCount (old s : List Char) : Nat :=
  if old = [] then s.length + 1 else (pySplit old s).length - 1

/-- Python `content.replace(old_str, new_str)`: replace every
non-overlapping occurrence; for an empty pattern, insert `new` at every
position including both ends. -/
def pyReplaceAll (old new s : List Char) : List Char :=
  if old = [] then new ++ s.flatMap (fun c => c :: new)
  else List.intercalate new (pySplit old s)

/-- `str_replace` from `tools.py` (lines 209-259), acting on the target
file's content.  `file` is the file's current content (`none` when the
file does not exist); `io` injects an exception from `read_text` /
`write_text` (caught by the `except` clause).  The first component of the
result is the content written back, `none` when no write happens; the
second is the returned message.  Inside the in-range occurrence branch an
empty `old_str` makes Python's `content.split('')` raise `ValueError:
empty separator`, which the same `except` clause converts. -/
def str_replace (path : String) (old new : List Char) (occurrence : Int)
    (file : Option (List Char)) (io : FsOutcome) : Option (List Char) × String :=
  match io with
  | .raised m => (none, "Error replacing text: " ++ m)
  | .ok =>
    match file with
    | none => (none, "Error: File " ++ path ++ " does not exist")
    | some content =>
      if pyIn old content = false then
        (none, "Error: Could not find the specified text in " ++ path)
      else
        let count := pyCount old content
        if occurrence = -1 then
          (some (pyReplaceAll old new content),
           "Successfully replaced " ++ toString count ++ " occurrence(s) in " ++ path)
        else if 0 < occurrence ∧ occurrence ≤ (count : Int) then
          if old = [] then (none, "Error replacing text: empty separator")
          else
            let parts := pySplit old content
            (some (List.intercalate old (parts.take occurrence.toNat) ++ new ++
                   List.intercalate old (parts.drop occurrence.toNat)),
             "Successfully replaced 1 occurrence(s) in " ++ path)
        else
          (none, "Error: Invalid occurrence " ++ toString occurrence ++ ". Found " ++
                 toString count ++ " occurrence(s)")

/-! ### `write_file` (`tools.py` lines 183-206) -/

/-- A path, split into components; `Path(path).expanduser()` resolution
is elided (paths are compared and decomposed purely structurally). -/
def path_components (p : String) : List String :=
  p.splitOn "/"

/-- The directories created by `file_path.parent.mkdir(parents=True,
exist_ok=True)`: every prefix of the parent's component list. -/
def path_dir_prefixes (d : List String) : List (List String) :=
  (List.range (d.length + 1)).map (fun k => d.take k)

/-- The filesystem as seen by `write_file`: a set of existing directories
and a map from file paths to contents. -/
structure PyFS where
  dirs : List (List String)
  files : List (List String × String)
deriving DecidableEq, Repr

/-- `mkdir(parents=True, exist_ok=True)` on a directory path. -/
def mkdir_parents (fs : PyFS) (d : List String) : PyFS :=
  { fs with dirs := path_dir_prefixes d ++ fs.dirs }

/-- `write_file` from `tools.py` (lines 183-206): create parent
directories, write the content, report `len(content)` (the number of
characters) in the success message; any raising operation is converted to
an error string. -/
def write_file (path content : String) (fs : PyFS) (io : FsOutcome) : PyFS × String :=
  match io with
  | .raised m => (fs, "Error writing file: " ++ m)
  | .ok =>
    let comps := path_components path
    let fs := mkdir_parents fs comps.dropLast
    let fs := { fs with files := (comps, content) :: fs.files.filter (fun q => decide (q.1 ≠ comps)) }
    (fs, "Successfully wrote " ++ toString content.length ++ " characters to " ++ path)

/-! ### `call_shell` (`tools.py` lines 146-180) and `execute_tool` -/

/-- Outcome of `subprocess.run(command, shell=True, timeout=30)`. -/
inductive ShellOutcome where
  | completed (returncode : Int) (stdout stderr : String)
  | timedOut
  | raised (msg : String)
deriving DecidableEq, Repr

/-- `call_shell` from `tools.py`: stdout on exit code 0, otherwise an
error string with exit code and stderr; timeout and exceptions are
converted to error strings. -/
def call_shell (command : String) (out : ShellOutcome) : String :=
  match out with
  | .completed rc o e =>
    if rc = 0 then o else "Error (exit code " ++ toString rc ++ "):\n" ++ e
  | .timedOut => "Error: Command timed out after 30 seconds"
  | .raised m => "Error executing command: " ++ m
-- `command` is interpolated only into a log line in the source.

/-- The environment a single `execute_tool` call acts on: outcomes of the
operating-system interactions of each tool, plus the exception texts
Python would produce (`str(e)`). -/
structure ToolEnv where
  shell : ShellOutcome
  fs : PyFS
  write_io : FsOutcome
  sr_file : Option (List Char)
  sr_io : FsOutcome
  fo : FinalOutputGlobals
  fo_io : FsOutcome
  fo_fail_dir : OutDir
  work_dir : String
  type_error_text : String
  misc_error_text : String
deriving Repr

/-- Does the parameter mapping contain key `k`? -/
def has_key (input : Params) (k : String) : Bool :=
  input.any (fun p => p.1 == k)

/-- First value bound to key `k`, if any. -/
def get_value (input : Params) (k : String) : Option Value :=
  (input.find? (fun p => p.1 == k)).map (fun p => p.2)

/-- Python's `tool_func(**tool_input)` raises `TypeError` exactly when a
required keyword is missing or an unexpected keyword is supplied. -/
def binds_ok (req opt : List String) (input : Params) : Bool :=
  req.all (has_key input) && input.all (fun p => req.contains p.1 || opt.contains p.1)

/-- The required/optional parameter names of a registered tool, from the
Python function signatures. -/
def tool_signature (name : String) : List String × List String :=
  if name = "call_shell" then (["command"], [])
  else if name = "write_file" then (["path", "content"], [])
  else if name = "str_replace" then (["path", "old_str", "new_str"], ["occurrence"])
  else (["summary"], [])

/-- `execute_tool` from `tools.py` (lines 355-387).  Unknown tools and
`TypeError` on parameter binding are converted to error strings; each
tool's own `except` clause converts any remaining exception (including
the ones provoked by values of the wrong type) into that tool's error
string, with Python's `str(e)` supplied by the environment.  The result
is always a plain string: no exception crosses this boundary. -/
def execute_tool (name : String) (input : Params) (env : ToolEnv) : String :=
  if ¬ (name = "call_shell" ∨ name = "write_file" ∨ name = "str_replace" ∨ name = "final_output") then
    "Error: Unknown tool \x27" ++ name ++ "\x27. Available tools: call_shell, write_file, str_replace, final_output"
  else if binds_ok (tool_signature name).1 (tool_signature name).2 input = false then
    if (TOOL_EXAMPLES_get name).isEmpty then
      "Error calling tool \x27" ++ name ++ "\x27: " ++ env.type_error_text
    else
      "Error calling tool \x27" ++ name ++ "\x27: " ++ env.type_error_text ++
        "\n\n *YOU MUST USE THE COMMAND WITH ALL THE PARAMETERS, FOR EXAMPLE*:\n" ++
        String.intercalate "\n" (TOOL_EXAMPLES_get name)
  else if name = "call_shell" then
    match get_value input "command" with
    | some (.str c) => call_shell c env.shell
    | _ => "Error executing command: " ++ env.misc_error_text
  else if name = "write_file" then
    match get_value input "path", get_value input "content" with
    | some (.str p), some (.str c) => (write_file p c env.fs env.write_io).2
    | _, _ => "Error writing file: " ++ env.misc_error_text
  else if name = "str_replace" then
    match get_value input "path", get_value input "old_str", get_value input "new_str" with
    | some (.str p), some (.str o), some (.str n) =>
      match get_value input "occurrence" with
      | none => (str_replace p o.toList n.toList (-1) env.sr_file env.sr_io).2
      | some (.int i) => (str_replace p o.toList n.toList i env.sr_file env.sr_io).2
      | some (.str _) => "Error replacing text: " ++ env.misc_error_text
    | _, _, _ => "Error replacing text: " ++ env.misc_error_text
  else
    match get_value input "summary" with
    | some (.str s) => (final_output env.fo s env.fo_io env.fo_fail_dir env.work_dir).2
    | _ => "Error saving final output: " ++ env.misc_error_text

/-- The success condition of one `execute_tool` call: the tool is
registered, the parameters bind, values have the expected types, and the
underlying operating-system interaction succeeds (for `str_replace`, the
file exists, the pattern occurs and the occurrence index is in range —
the branches of the source that return a `Successfully …` string). -/
def execute_tool_ok (name : String) (input : Params) (env : ToolEnv) : Bool :=
  (name = "call_shell" ∨ name = "write_file" ∨ name = "str_replace" ∨ name = "final_output") &&
  binds_ok (tool_signature name).1 (tool_signature name).2 input &&
  (if name = "call_shell" then
    (match get_value input "command", env.shell with
     | some (.str _), .completed 0 _ _ => true
     | _, _ => false)
  else if name = "write_file" then
    (match get_value input "path", get_value input "content", env.write_io with
     | some (.str _), some (.str _), .ok => true
     | _, _, _ => false)
  else if name = "str_replace" then
    (match get_value input "path", get_value input "old_str", get_value input "new_str",
           env.sr_io, env.sr_file with
     | some (.str _), some (.str o), some (.str _), .ok, some content =>
       pyIn o.toList content &&
       (match get_value input "occurrence" with
        | none => true
        | some (.int i) =>
          i == -1 ||
            (0 < i && i ≤ (pyCount o.toList content : Int) && !(o.toList == []))
        | some (.str _) => false)
     | _, _, _, _, _ => false)
  else
    (match get_value input "summary", env.fo_io with
     | some (.str _), .ok => true
     | _, _ => false))

/-- No block of the list is a tool invocation (what the provider returns
when the call was issued with `tool_choice = "none"`). -/
def no_tool_use_blocks (blocks : List ContentBlock) : Bool :=
  blocks.all (fun b =>
    match b with
    | .toolUse _ _ _ => false
    | _ => true)

/-! ## Theorems -/

/-- On a response without tool invocations, `process_message_content`
reports nothing: no tool use, no results, no failures, no flags. -/
theorem process_message_content_no_tool_use (ex : Executor) (blocks : List ContentBlock)
    (h : no_tool_use_blocks blocks = true) :
    process_message_content ex blocks = ⟨[], false, [], false, false⟩ := by
  unfold process_message_content
  unfold no_tool_use_blocks at h
  induction blocks with
  | nil => rfl
  | cons b rest ih =>
    simp only [List.all_cons, Bool.and_eq_true] at h
    cases b with
    | text s => simpa [process_step] using ih h.2
    | other => simpa [process_step] using ih h.2
    | toolUse name input id => simp at h

/-- The post-lockout tail of the loop body never changes the temperature
or the tool latch of a state it loops on. -/
theorem driver_step_rest_next_fields (scc : Bool) (mode : String) (m : LLMResp)
    (pr : ProcessResult) (s st' : DriverState)
    (h : driver_step_rest scc mode m pr s = .next st') :
    st'.temperature = s.temperature ∧
    st'.disable_tools_next_call = s.disable_tools_next_call := by
  simp only [driver_step_rest] at h
  split at h
  · cases h; exact ⟨rfl, rfl⟩
  split at h
  · cases h; exact ⟨rfl, rfl⟩
  split at h
  · cases h
  split at h
  · cases h
  split at h
  · split at h
    · cases h; exact ⟨rfl, rfl⟩
    split at h
    · cases h
    split at h
    · split at h
      · cases h
      · cases h
    · cases h
  · cases h

/-- The temperature written by `handle_error_temperature_adjustment` is
the incoming one, `0`, or `1`. -/
theorem handle_temp_cases (a b : List ErrEntry) (c : Bool) (t : ℚ) (k : Nat) :
    (handle_error_temperature_adjustment a b c t k).1 = t ∨
    (handle_error_temperature_adjustment a b c t k).1 = 0 ∨
    (handle_error_temperature_adjustment a b c t k).1 = 1 := by
  unfold handle_error_temperature_adjustment
  repeat' split
  all_goals (first | (simp; done) | (dsimp only; split <;> simp))

/-- Failures are recorded only for `tool_use` blocks, so a fold that ends
with `has_tool_use = false` reports no failures (wiring fact behind
claim C3). -/
theorem foldl_process_no_tool_use_no_errors (ex : Executor) (blocks : List ContentBlock)
    (acc : ProcessResult) (hacc : acc.has_tool_use = false → acc.current_errors = []) :
    (blocks.foldl (process_step ex) acc).has_tool_use = false →
    (blocks.foldl (process_step ex) acc).current_errors = [] := by
  induction blocks generalizing acc with
  | nil => exact hacc
  | cons c rest ih =>
    cases c with
    | text s => exact ih acc hacc
    | other => exact ih acc hacc
    | toolUse name input id =>
      simp only [List.foldl_cons, process_step]
      cases hex : ex name input with
      | ok result => exact ih _ (by intro h; simp at h)
      | raised m => exact ih _ (by intro h; simp at h)

/-- Claim C2: when the updated error history reaches length 5 with the 5
most recent entries structurally identical, the loop body of
`execute_single_task` (a) latches tool availability off, so the very next
LLM call is issued without tools, (b) injects a user-role message that
names the offending tool, its parameters and that tool's canned usage
examples, (c) clears the error history and resets the temperature to
`0.0`, and (d) provided the locked-out call comes back without tool
invocations (the provider was told `tool_choice = "none"`), the state
after processing it has the latch cleared again, so the following call
has tools re-enabled. -/
theorem C2_lockout_protocol (ex : Executor) (scc : Bool) (mode : String)
    (st : DriverState) (m : LLMResp) (adj : ℚ × List ErrEntry) (e0 : ErrEntry)
    (hadj : adj = handle_error_temperature_adjustment
      (process_message_content ex m.content).current_errors st.error_history
      (process_message_content ex m.content).has_tool_use st.temperature 2)
    (he0 : e0 = (lastN 5 adj.2).headD ("", []))
    (hlock : lockout_triggered adj.2 = true) :
    ∃ st' : DriverState,
      driver_step ex scc mode st (some m) = .next st' ∧
      st'.disable_tools_next_call = true ∧
      tools_enabled_for_call st' = false ∧
      st'.error_history = [] ∧
      st'.temperature = 0 ∧
      st'.messages = st.messages ++
        [Msg.assistant m.content, Msg.userText (lockout_message e0.1 e0.2)] ∧
      (∃ s1 s2 s3 s4 : String,
        lockout_message e0.1 e0.2 =
          s1 ++ e0.1 ++ s2 ++ pyStrOfParams e0.2 ++ s3 ++ examples_str_for e0.1 ++ s4) ∧
      (∀ m2 : LLMResp, no_tool_use_blocks m2.content = true →
        ∀ st'' : DriverState,
          driver_step ex scc mode st' (some m2) = .next st'' →
          tools_enabled_for_call st'' = true) := by
  refine ⟨{ messages :=
              st.messages ++
                [Msg.assistant m.content, Msg.userText (lockout_message e0.1 e0.2)],
            temperature := 0,
            error_history := [],
            disable_tools_next_call := true,
            coverage_report_called := st.coverage_report_called,
            final_output_called := st.final_output_called }, ?_, rfl, rfl, rfl, rfl, rfl,
    ⟨"You have attempted the same tool call 5 times with identical parameters and it has failed each time.\n                    Tool: ",
     "\n                    Failed parameters: ",
     "\n                    Please explain what you\x27re trying to do and consider an alternative approach. When I re-enable tools, here are examples of correct usage:\n                    ",
     "\n                    What are you trying to accomplish? Let\x27s think about this differently.",
     rfl⟩, ?_⟩
  · subst he0
    simp only [driver_step, ← hadj, hlock, if_true, List.append_assoc, List.cons_append,
      List.nil_append]
  · intro m2 hm2 st'' hstep
    have hpr : process_message_content ex m2.content = ⟨[], false, [], false, false⟩ :=
      process_message_content_no_tool_use ex m2.content hm2
    have hhandle : handle_error_temperature_adjustment [] [] false 0 2 = ((0 : ℚ), ([] : List ErrEntry)) := by
      decide
    have hnolock : lockout_triggered ([] : List ErrEntry) = false := by decide
    simp only [driver_step, hpr, hhandle, hnolock, Bool.false_eq_true, if_false] at hstep
    have h2 := (driver_step_rest_next_fields scc mode m2 _ _ _ hstep).2
    simp only [tools_enabled_for_call, h2]
    rfl

/-- Witness for `C2_lockout_protocol`: a response carrying five identical
failing `call_shell` invocations, processed from the initial state,
triggers the lockout. -/
theorem C2_lockout_protocol_witness :
    ∃ st' : DriverState,
      driver_step (fun _ _ => .ok "Error: boom") false "player"
        (init_driver_state [])
        (some ⟨List.replicate 5
          (ContentBlock.toolUse "call_shell" [("command", Value.str "ls")] "id1"),
          "end_turn"⟩) = .next st' ∧
      st'.disable_tools_next_call = true ∧
      tools_enabled_for_call st' = false ∧
      st'.error_history = [] ∧
      st'.temperature = 0 ∧
      st'.messages = (init_driver_state []).messages ++
        [Msg.assistant (List.replicate 5
          (ContentBlock.toolUse "call_shell" [("command", Value.str "ls")] "id1")),
         Msg.userText (lockout_message "call_shell" [("command", Value.str "ls")])] ∧
      (∃ s1 s2 s3 s4 : String,
        lockout_message "call_shell" [("command", Value.str "ls")] =
          s1 ++ "call_shell" ++ s2 ++ pyStrOfParams [("command", Value.str "ls")] ++ s3 ++
            examples_str_for "call_shell" ++ s4) ∧
      (∀ m2 : LLMResp, no_tool_use_blocks m2.content = true →
        ∀ st'' : DriverState,
          driver_step (fun _ _ => .ok "Error: boom") false "player" st' (some m2) = .next st'' →
          tools_enabled_for_call st'' = true) := by
  have h := C2_lockout_protocol (fun _ _ => .ok "Error: boom") false "player"
    (init_driver_state [])
    ⟨List.replicate 5 (ContentBlock.toolUse "call_shell" [("command", Value.str "ls")] "id1"),
     "end_turn"⟩
    _ _ rfl rfl (by decide)
  simpa using h

/-- Claim C9: the sampling temperature only ever takes the two values
`0.0` and `1.0` — it starts at `0.0` and every state reachable through
loop iterations keeps it in `{0.0, 1.0}` (every update in
`handle_error_temperature_adjustment` writes the incoming value, `0` or
`1`, and the lockout reset writes `0`; the separate summary-report call
uses the `send_message` default `0.0`). -/
theorem C9_temperature_invariant :
    (∀ messages : List Msg, (init_driver_state messages).temperature = 0) ∧
    (∀ (ex : Executor) (scc : Bool) (mode : String) (st : DriverState),
      DriverReachable ex scc mode st → st.temperature = 0 ∨ st.temperature = 1) := by
  refine ⟨fun _ => rfl, ?_⟩
  intro ex scc mode st h
  induction h with
  | init messages => exact Or.inl rfl
  | step s s' resp hreach hstep ih =>
    cases resp with
    | none => simp [driver_step] at hstep
    | some m =>
      simp only [driver_step] at hstep
      split at hstep
      · cases hstep
        exact Or.inl rfl
      · have ht := (driver_step_rest_next_fields scc mode m _ _ _ hstep).1
        rw [ht]
        dsimp only
        rcases handle_temp_cases (process_message_content ex m.content).current_errors
            s.error_history (process_message_content ex m.content).has_tool_use
            s.temperature 2 with h' | h' | h'
        · rw [h']; exact ih
        · rw [h']; exact Or.inl rfl
        · rw [h']; exact Or.inr rfl

/-- Witness for `C9_temperature_invariant`: the invariant applied to the
initial state of an empty conversation. -/
theorem C9_temperature_invariant_witness :
    (init_driver_state []).temperature = 0 ∨ (init_driver_state []).temperature = 1 :=
  C9_temperature_invariant.2 (fun _ _ => .ok "") false "player" (init_driver_state [])
    (DriverReachable.init [])

/-! Lemmas about the output-directory model, leading to claim C4. -/

/-- Lookup on a cons cell. -/
theorem dirLookup_cons (a : Nat) (v : String) (d : OutDir) (k : Nat) :
    dirLookup ((a, v) :: d) k = if k = a then some v else dirLookup d k := by
  unfold dirLookup
  rw [List.lookup_cons]
  by_cases h : k = a
  · simp [h]
  · have hb : (k == a) = false := by simpa using h
    simp [hb, h]

/-- Lookup over an append. -/
theorem dirLookup_append (d1 d2 : OutDir) (k : Nat) :
    dirLookup (d1 ++ d2) k = (dirLookup d1 k).or (dirLookup d2 k) := by
  unfold dirLookup
  exact List.lookup_append

/-- A directory none of whose entries carries key `k` answers `none`. -/
theorem dirLookup_eq_none (d : OutDir) (k : Nat) (h : ∀ p ∈ d, p.1 ≠ k) :
    dirLookup d k = none := by
  induction d with
  | nil => rfl
  | cons p rest ih =>
    obtain ⟨a, v⟩ := p
    rw [dirLookup_cons]
    have ha : a ≠ k := h (a, v) (by simp)
    have hne : k ≠ a := fun hk => ha hk.symm
    rw [if_neg hne]
    exact ih (fun q hq => h q (by simp [hq]))

/-- Lookup on an enumerated chain of suffixes. -/
theorem dirLookup_enumFrom (l : List String) (n k : Nat) :
    dirLookup (List.enumFrom n l) k = if n ≤ k then l.get? (k - n) else none := by
  induction l generalizing n with
  | nil => simp [dirLookup, List.lookup]
  | cons x xs ih =>
    rw [List.enumFrom_cons, dirLookup_cons]
    by_cases hk : k = n
    · subst hk
      simp
    · rw [if_neg hk, ih (n + 1)]
      by_cases h1 : n ≤ k
      · have h2 : n + 1 ≤ k := by omega
        rw [if_pos h2, if_pos h1]
        have h3 : k - n = (k - (n + 1)) + 1 := by omega
        rw [h3]
        rfl
      · have h2 : ¬ (n + 1 ≤ k) := by omega
        rw [if_neg h2, if_neg h1]

/-- Lookup on `l.enum` is positional lookup in `l`. -/
theorem dirLookup_enum (l : List String) (k : Nat) :
    dirLookup l.enum k = l.get? k := by
  rw [List.enum_eq_enumFrom, dirLookup_enumFrom]
  simp

/-- The version-number search returns the first missing suffix, whenever
the fuel reaches it. -/
theorem find_version_num_aux_eq (d : OutDir) (m : Nat) :
    ∀ (fuel k : Nat), k ≤ m → m < k + fuel →
    (∀ j, k ≤ j → j < m → (dirLookup d j).isSome = true) →
    dirLookup d m = none →
    find_version_num_aux d fuel k = m := by
  intro fuel
  induction fuel with
  | zero =>
    intro k h1 h2 _ _
    exact absurd h2 (by omega)
  | succ fuel ih =>
    intro k h1 h2 hsome hnone
    unfold find_version_num_aux
    by_cases hk : k = m
    · subst hk
      simp [hnone]
    · have hlt : k < m := by omega
      have hs : (dirLookup d k).isSome = true := hsome k le_rfl hlt
      simp only [hs, if_true]
      exact ih (k + 1) (by omega) (by omega) (fun j hj1 hj2 => hsome j (by omega) hj2) hnone

/-- On the directory left by `n + 1` successful writes, the search finds
suffix `n + 1` free. -/
theorem find_version_num_enum (x : String) (xs : List String) :
    find_version_num ((x :: xs).enum) = xs.length + 1 := by
  unfold find_version_num
  apply find_version_num_aux_eq
  · omega
  · rw [List.enum_length]
    simp
    omega
  · intro j _ hj2
    rw [dirLookup_enum]
    have hj : j < (x :: xs).length := by simpa using hj2
    rw [List.get?_eq_get hj]
    rfl
  · rw [dirLookup_enum, List.get?_eq_none]
    simp

/-- Removal distributes over append. -/
theorem dirRemove_append (d1 d2 : OutDir) (k : Nat) :
    dirRemove (d1 ++ d2) k = dirRemove d1 k ++ dirRemove d2 k := by
  unfold dirRemove
  exact List.filter_append d1 d2

/-- Removing an absent key is the identity. -/
theorem dirRemove_of_keys (d : OutDir) (k : Nat) (h : ∀ p ∈ d, p.1 ≠ k) :
    dirRemove d k = d := by
  unfold dirRemove
  rw [List.filter_eq_self]
  intro a ha
  simpa using h a ha

/-- Removal on a cons cell. -/
theorem dirRemove_cons (a : Nat) (v : String) (d : OutDir) (k : Nat) :
    dirRemove ((a, v) :: d) k = if a = k then dirRemove d k else (a, v) :: dirRemove d k := by
  unfold dirRemove
  by_cases h : a = k <;> simp [List.filter_cons, h]

/-- Key bounds of an enumerated chain. -/
theorem keys_enumFrom {p : Nat × String} {n : Nat} {ys : List String}
    (h : p ∈ List.enumFrom n ys) : n ≤ p.1 ∧ p.1 < n + ys.length := by
  obtain ⟨i, v⟩ := p
  exact ⟨(List.mem_enumFrom h).1, (List.mem_enumFrom h).2.1⟩

/-- Shape of the rotation loop on a fully-populated version chain `1…n`
(plus the unsuffixed file and higher-keyed entries already shifted):
every version moves up by one, leaving suffix 1 free. -/
theorem rotate_versions_shape (x : String) (ys : List String) :
    ∀ junk : OutDir, (∀ p ∈ junk, ys.length + 1 < p.1) →
    rotate_versions (junk ++ (0, x) :: List.enumFrom 1 ys) ys.length =
      List.enumFrom 2 ys ++ junk ++ [(0, x)] := by
  induction ys using List.reverseRecOn with
  | nil =>
    intro junk _
    simp [rotate_versions]
  | append_singleton ys z ih =>
    intro junk hjunk
    have hlen : (ys ++ [z]).length = ys.length + 1 := by simp
    rw [hlen]
    rw [List.enumFrom_append]
    have hz : List.enumFrom (1 + ys.length) [z] = [(ys.length + 1, z)] := by
      simp [List.enumFrom_cons, Nat.add_comm]
    rw [hz]
    rw [show rotate_versions
          (junk ++ (0, x) :: (List.enumFrom 1 ys ++ [(ys.length + 1, z)])) (ys.length + 1) =
        rotate_versions
          (dirRename (junk ++ (0, x) :: (List.enumFrom 1 ys ++ [(ys.length + 1, z)]))
            (ys.length + 1) (ys.length + 2)) ys.length from rfl]
    have hlk : dirLookup (junk ++ (0, x) :: (List.enumFrom 1 ys ++ [(ys.length + 1, z)]))
        (ys.length + 1) = some z := by
      rw [dirLookup_append,
        dirLookup_eq_none junk _ (fun p hp => by have := hjunk p hp; simp at this; omega),
        Option.none_or, dirLookup_cons, if_neg (by omega), dirLookup_append, dirLookup_enumFrom,
        if_pos (by omega)]
      have hnone : ys.get? (ys.length + 1 - 1) = none := by
        rw [List.get?_eq_none]
        omega
      rw [hnone, Option.none_or, dirLookup_cons, if_pos rfl]
    have hren : dirRename (junk ++ (0, x) :: (List.enumFrom 1 ys ++ [(ys.length + 1, z)]))
        (ys.length + 1) (ys.length + 2) =
        dirSet (dirRemove (junk ++ (0, x) :: (List.enumFrom 1 ys ++ [(ys.length + 1, z)]))
          (ys.length + 1)) (ys.length + 2) z := by
      unfold dirRename
      rw [hlk]
    have hrem : dirRemove (junk ++ (0, x) :: (List.enumFrom 1 ys ++ [(ys.length + 1, z)]))
        (ys.length + 1) = junk ++ (0, x) :: List.enumFrom 1 ys := by
      rw [show ((0, x) : Nat × String) :: (List.enumFrom 1 ys ++ [(ys.length + 1, z)]) =
          ((0, x) :: List.enumFrom 1 ys) ++ [(ys.length + 1, z)] from rfl]
      rw [dirRemove_append, dirRemove_append,
        dirRemove_of_keys junk _ (fun p hp => by have := hjunk p hp; simp at this; omega),
        dirRemove_cons, if_neg (by omega),
        dirRemove_of_keys (List.enumFrom 1 ys) _
          (fun p hp => by have := keys_enumFrom hp; omega),
        dirRemove_cons, if_pos rfl]
      simp [dirRemove]
    have hset : dirSet (junk ++ (0, x) :: List.enumFrom 1 ys) (ys.length + 2) z =
        ((ys.length + 2, z) :: junk) ++ (0, x) :: List.enumFrom 1 ys := by
      unfold dirSet
      rw [dirRemove_append,
        dirRemove_of_keys junk _ (fun p hp => by have := hjunk p hp; simp at this; omega),
        dirRemove_cons, if_neg (by omega),
        dirRemove_of_keys (List.enumFrom 1 ys) _
          (fun p hp => by have := keys_enumFrom hp; omega)]
      rfl
    rw [hren, hrem, hset]
    have hjunk' : ∀ p ∈ ((ys.length + 2, z) :: junk), ys.length + 1 < p.1 := by
      intro p hp
      rcases List.mem_cons.mp hp with rfl | hp
      · simp
      · have := hjunk p hp
        simp at this
        omega
    rw [ih _ hjunk']
    rw [List.enumFrom_append]
    have hz2 : List.enumFrom (2 + ys.length) [z] = [(ys.length + 2, z)] := by
      simp [List.enumFrom_cons, Nat.add_comm]
    rw [hz2]
    simp

/-- One successful `final_output` write on the directory left by the
previous writes: every prior version shifts up one suffix and the new
summary lands in the unsuffixed slot. -/
theorem final_output_files_enum (l : List String) (s : String) :
    final_output_files l.enum s = (s :: l).enum := by
  cases l with
  | nil => rfl
  | cons x xs =>
    have h0 : (dirLookup ((x :: xs).enum) 0).isSome = true := by
      rw [dirLookup_enum]
      rfl
    simp only [final_output_files, h0, if_true, find_version_num_enum]
    have hidx : xs.length + 1 - 1 = xs.length := rfl
    rw [hidx, List.enum_cons]
    have hrot := rotate_versions_shape x xs [] (by simp)
    simp only [List.nil_append, List.append_nil] at hrot
    rw [hrot]
    have hlk0 : dirLookup (List.enumFrom 2 xs ++ [(0, x)]) 0 = some x := by
      rw [dirLookup_append, dirLookup_enumFrom, if_neg (by omega), Option.none_or,
        dirLookup_cons, if_pos rfl]
    rw [show dirRename (List.enumFrom 2 xs ++ [(0, x)]) 0 1 =
        dirSet (dirRemove (List.enumFrom 2 xs ++ [(0, x)]) 0) 1 x by
      unfold dirRename
      rw [hlk0]]
    have hrem0 : dirRemove (List.enumFrom 2 xs ++ [(0, x)]) 0 = List.enumFrom 2 xs := by
      rw [dirRemove_append,
        dirRemove_of_keys (List.enumFrom 2 xs) _
          (fun p hp => by have := keys_enumFrom hp; omega),
        dirRemove_cons, if_pos rfl]
      simp [dirRemove]
    rw [hrem0]
    have hset1 : dirSet (List.enumFrom 2 xs) 1 x = (1, x) :: List.enumFrom 2 xs := by
      unfold dirSet
      rw [dirRemove_of_keys (List.enumFrom 2 xs) _
        (fun p hp => by have := keys_enumFrom hp; omega)]
    rw [hset1]
    have hset0 : dirSet ((1, x) :: List.enumFrom 2 xs) 0 s =
        (0, s) :: (1, x) :: List.enumFrom 2 xs := by
      unfold dirSet
      rw [dirRemove_cons, if_neg (by omega),
        dirRemove_of_keys (List.enumFrom 2 xs) _
          (fun p hp => by have := keys_enumFrom hp; omega)]
    rw [hset0, List.enum_cons, List.enumFrom_cons]

/-- A run of writes from the empty directory, started at any already
written history. -/
theorem foldl_final_output_files (ss : List String) :
    ∀ l : List String, ss.foldl final_output_files l.enum = ((ss.reverse ++ l).enum) := by
  induction ss with
  | nil =>
    intro l
    simp
  | cons s rest ih =>
    intro l
    rw [List.foldl_cons, final_output_files_enum, ih (s :: l)]
    congr 1
    simp

/-- The directory after any sequence of successful writes is exactly the
reversed history, enumerated. -/
theorem run_final_outputs_eq (ss : List String) :
    run_final_outputs ss = (ss.reverse).enum := by
  unfold run_final_outputs
  rw [show ([] : OutDir) = ([] : List String).enum from rfl, foldl_final_output_files]
  simp

/-- Claim C4: for every sequence of `final_output` writes starting with
no prior output file, the resulting directory is exactly the reversed
write history under increasing suffixes: the first write creates exactly
one file; after `N` writes, suffix `i` (for `1 ≤ i ≤ N-1`) holds the
`(N-i)`-th payload (oldest highest) and the unsuffixed slot always holds
the most recent payload — so every prior output is preserved under a
rotated name, never silently overwritten. -/
theorem C4_final_output_rotation (ss : List String) :
    run_final_outputs ss = ss.reverse.enum ∧
    (∀ s : String, run_final_outputs [s] = [(0, s)]) ∧
    (∀ k : Nat, dirLookup (run_final_outputs ss) k = ss.reverse.get? k) ∧
    (∀ s : String, dirLookup (run_final_outputs (ss ++ [s])) 0 = some s) := by
  refine ⟨run_final_outputs_eq ss, fun s => by rw [run_final_outputs_eq]; rfl, ?_, ?_⟩
  · intro k
    rw [run_final_outputs_eq, dirLookup_enum]
  · intro s
    rw [run_final_outputs_eq, dirLookup_enum]
    simp

/-- A string starting with `p` still starts with `p` after appending. -/
theorem py_startswith_append (a b p : String) (h : py_startswith a p = true) :
    py_startswith (a ++ b) p = true := by
  unfold py_startswith at *
  rw [List.isPrefixOf_iff_prefix] at h ⊢
  have hd : (a ++ b).toList = a.toList ++ b.toList := by
    simp [String.toList]
  rw [hd]
  exact h.trans (List.prefix_append _ _)

/-- Claim C10: `final_output` stores the new summary in the process-wide
`LAST_FINAL_OUTPUT` before any file operation; even when a file operation
fails and an `Error`-prefixed string is returned, the recorded payload
has already been replaced. -/
theorem C10_last_final_output_set_first (g : FinalOutputGlobals) (summary : String)
    (io : FsOutcome) (fail_dir : OutDir) (work_dir : String) :
    (final_output g summary io fail_dir work_dir).1.last_final_output = some summary ∧
    (∀ m : String, io = .raised m →
      py_startswith (final_output g summary io fail_dir work_dir).2 "Error" = true) := by
  constructor
  · cases io <;> rfl
  · intro m hm
    subst hm
    exact py_startswith_append "Error saving final output: " m "Error" (by decide)

/-- Witness for `C10_last_final_output_set_first`: a failing write still
leaves the new summary recorded and returns an error string. -/
theorem C10_witness :
    (final_output ⟨some "old", [(0, "old")]⟩ "new" (.raised "disk full") [] "wd").1.last_final_output
        = some "new" ∧
      py_startswith
        (final_output ⟨some "old", [(0, "old")]⟩ "new" (.raised "disk full") [] "wd").2 "Error"
        = true :=
  ⟨(C10_last_final_output_set_first ⟨some "old", [(0, "old")]⟩ "new" (.raised "disk full") [] "wd").1,
   (C10_last_final_output_set_first ⟨some "old", [(0, "old")]⟩ "new" (.raised "disk full") [] "wd").2
     "disk full" rfl⟩

/-- Claim C8 is false as stated: the success message of `write_file`
reports `len(content)` — the number of characters — not the number of
bytes written.  For the one-character content `"é"` (2 bytes in UTF-8)
the message reports 1. -/
theorem C8_counterexample :
    (write_file "f" "é" ⟨[], []⟩ FsOutcome.ok).2 =
        "Successfully wrote 1 characters to f" ∧
      ("é" : String).utf8ByteSize = 2 := by
  constructor
  · rfl
  · rfl

/-- Claim C8, amended: every successful `write_file` call creates every
missing parent directory of the target path (every prefix of the parent's
component list is present afterwards), stores the content, and returns a
success message reporting the *character* count (`len(content)`) of the
supplied content — which equals the byte count only for ASCII content. -/
theorem C8_amended (path content : String) (fs : PyFS) :
    (write_file path content fs .ok).2 =
      "Successfully wrote " ++ toString content.length ++ " characters to " ++ path ∧
    (∀ k : Nat, (path_components path).dropLast.take k ∈ (write_file path content fs .ok).1.dirs) ∧
    List.lookup (path_components path) (write_file path content fs .ok).1.files = some content := by
  refine ⟨rfl, ?_, ?_⟩
  · intro k
    show (path_components path).dropLast.take k ∈
      path_dir_prefixes (path_components path).dropLast ++ fs.dirs
    apply List.mem_append_left
    unfold path_dir_prefixes
    rcases le_or_lt k (path_components path).dropLast.length with hk | hk
    · exact List.mem_map.mpr ⟨k, List.mem_range.mpr (by omega), rfl⟩
    · have heq : (path_components path).dropLast.take k = (path_components path).dropLast :=
        List.take_of_length_le (by omega)
      rw [heq]
      exact List.mem_map.mpr
        ⟨(path_components path).dropLast.length, List.mem_range.mpr (by omega), List.take_length _⟩
  · show List.lookup (path_components path)
      ((path_components path, content) :: List.filter _ fs.files) = some content
    rw [List.lookup_cons]
    simp

/-! Lemmas about the Python split/replace model, leading to claims C6
and C7. -/

/-- `List.intercalate` on a singleton. -/
theorem intercalate_single (sep a : List Char) : List.intercalate sep [a] = a := by
  simp [List.intercalate]

/-- `List.intercalate` peels one piece. -/
theorem intercalate_cons_cons (sep a b : List Char) (t : List (List Char)) :
    List.intercalate sep (a :: b :: t) = a ++ sep ++ List.intercalate sep (b :: t) := by
  simp [List.intercalate, List.intersperse_cons₂]

/-- Prepending onto the head piece prepends onto the joined list. -/
theorem intercalate_cons_head (sep h : List Char) (c : Char) (t : List (List Char)) :
    List.intercalate sep ((c :: h) :: t) = c :: List.intercalate sep (h :: t) := by
  cases t with
  | nil => simp [intercalate_single]
  | cons b t => simp [intercalate_cons_cons]

/-- The split never returns an empty list of pieces. -/
theorem pySplitF_ne_nil (sep : List Char) : ∀ (fuel : Nat) (s : List Char),
    pySplitF sep fuel s ≠ [] := by
  intro fuel
  induction fuel with
  | zero =>
    intro s
    cases s <;> simp [pySplitF]
  | succ fuel ih =>
    intro s
    cases s with
    | nil => simp [pySplitF]
    | cons c rest =>
      unfold pySplitF
      split
      · simp
      · have := ih rest
        cases h : pySplitF sep fuel rest with
        | nil => exact absurd h this
        | cons a t => simp [h]

/-- Joining the split with the separator restores the string
(`sep.join(content.split(sep)) == content`). -/
theorem intercalate_pySplitF (sep : List Char) (hsep : sep ≠ []) :
    ∀ (fuel : Nat) (s : List Char), s.length ≤ fuel →
    List.intercalate sep (pySplitF sep fuel s) = s := by
  intro fuel
  induction fuel with
  | zero =>
    intro s hs
    have : s = [] := List.length_eq_zero.mp (by omega)
    subst this
    simp [pySplitF, intercalate_single]
  | succ fuel ih =>
    intro s hs
    cases s with
    | nil => simp [pySplitF, intercalate_single]
    | cons c rest =>
      unfold pySplitF
      split
      · rename_i hpre
        have hpre' : sep <+: (c :: rest) := List.isPrefixOf_iff_prefix.mp hpre
        have hlen : 1 ≤ sep.length := by
          cases sep with
          | nil => exact absurd rfl hsep
          | cons a t => simp
        have hdrop : (rest.drop (sep.length - 1)).length ≤ fuel := by
          have := List.length_drop (sep.length - 1) rest
          simp at hs
          omega
        have hne := pySplitF_ne_nil sep fuel (rest.drop (sep.length - 1))
        cases hsp : pySplitF sep fuel (rest.drop (sep.length - 1)) with
        | nil => exact absurd hsp hne
        | cons h t =>
          rw [intercalate_cons_cons, List.nil_append]
          have hih := ih (rest.drop (sep.length - 1)) hdrop
          rw [hsp] at hih
          rw [hih]
          obtain ⟨suf, hsuf⟩ := hpre'
          have : (c :: rest).drop sep.length = suf := by
            rw [← hsuf]
            exact List.drop_left sep suf
          have hd : rest.drop (sep.length - 1) = (c :: rest).drop sep.length := by
            cases hsl : sep.length with
            | zero => omega
            | succ n => simp [hsl]
          rw [hd, this, ← hsuf]
      · rename_i hpre
        have hne := pySplitF_ne_nil sep fuel rest
        cases hsp : pySplitF sep fuel rest with
        | nil => exact absurd hsp hne
        | cons h t =>
          have hih := ih rest (by simp at hs; omega)
          rw [hsp] at hih
          simp only [hsp, List.modifyHead]
          rw [intercalate_cons_head, hih]

/-- The head piece of a split is a prefix of the input. -/
theorem pySplitF_head_front (sep : List Char) (hsep : sep ≠ []) (fuel : Nat)
    (s h : List Char) (t : List (List Char)) (hs : s.length ≤ fuel)
    (hsp : pySplitF sep fuel s = h :: t) : h <+: s := by
  have hj := intercalate_pySplitF sep hsep fuel s hs
  rw [hsp] at hj
  cases t with
  | nil =>
    rw [intercalate_single] at hj
    exact hj ▸ List.prefix_refl h
  | cons b t =>
    rw [intercalate_cons_cons] at hj
    rw [← hj]
    simp only [List.append_assoc]
    exact List.prefix_append h (sep ++ List.intercalate sep (b :: t))

/-- No piece of the split contains the separator as a substring. -/
theorem pySplitF_no_infix (sep : List Char) (hsep : sep ≠ []) :
    ∀ (fuel : Nat) (s : List Char), s.length ≤ fuel →
    ∀ piece ∈ pySplitF sep fuel s, ¬ sep <:+: piece := by
  intro fuel
  induction fuel with
  | zero =>
    intro s hs
    have : s = [] := List.length_eq_zero.mp (by omega)
    subst this
    intro piece hp
    simp [pySplitF] at hp
    subst hp
    intro hinf
    exact hsep (List.eq_nil_of_infix_nil hinf)
  | succ fuel ih =>
    intro s hs
    cases s with
    | nil =>
      intro piece hp
      simp [pySplitF] at hp
      subst hp
      intro hinf
      exact hsep (List.eq_nil_of_infix_nil hinf)
    | cons c rest =>
      intro piece hp
      unfold pySplitF at hp
      by_cases hpre : sep.isPrefixOf (c :: rest) = true
      · rw [if_pos hpre] at hp
        rcases List.mem_cons.mp hp with rfl | hp
        · intro hinf
          exact hsep (List.eq_nil_of_infix_nil hinf)
        · have hlen : 1 ≤ sep.length := by
            cases sep with
            | nil => exact absurd rfl hsep
            | cons a t => simp
          have hdrop : (rest.drop (sep.length - 1)).length ≤ fuel := by
            have := List.length_drop (sep.length - 1) rest
            simp at hs
            omega
          exact ih (rest.drop (sep.length - 1)) hdrop piece hp
      · rw [if_neg hpre] at hp
        have hne := pySplitF_ne_nil sep fuel rest
        have hrest : rest.length ≤ fuel := by
          simp at hs
          omega
        cases hsp : pySplitF sep fuel rest with
        | nil => exact absurd hsp hne
        | cons h t =>
          rw [hsp, List.modifyHead] at hp
          rcases List.mem_cons.mp hp with rfl | hp
          · intro hinf
            rcases List.infix_cons_iff.mp hinf with hpre2 | hinf2
            · have hhp : h <+: rest := pySplitF_head_front sep hsep fuel rest h t hrest hsp
              have hch : (c :: h) <+: (c :: rest) := by
                rw [List.cons_prefix_cons]
                exact ⟨rfl, hhp⟩
              exact hpre (List.isPrefixOf_iff_prefix.mpr (hpre2.trans hch))
            · exact ih rest hrest h (by rw [hsp]; exact List.mem_cons_self h t) hinf2
          · exact ih rest hrest piece (by rw [hsp]; exact List.mem_cons_of_mem h hp)

/-- Python's `in` agrees with substring containment: if the pattern is a
substring, `pyIn` reports `true`. -/
theorem pyIn_of_substring (old s : List Char) (h : old <:+: s) : pyIn old s = true := by
  obtain ⟨pre, suf, rfl⟩ := h
  unfold pyIn
  rw [List.any_eq_true]
  refine ⟨pre.length, List.mem_range.mpr (by simp; omega), ?_⟩
  rw [List.append_assoc, List.drop_left]
  exact List.isPrefixOf_iff_prefix.mpr (List.prefix_append old suf)

/-- Conversely, `pyIn` only reports substrings. -/
theorem substring_of_pyIn (old s : List Char) (h : pyIn old s = true) : old <:+: s := by
  unfold pyIn at h
  rw [List.any_eq_true] at h
  obtain ⟨i, _, hpre⟩ := h
  obtain ⟨suf, hsuf⟩ := List.isPrefixOf_iff_prefix.mp hpre
  exact ⟨s.take i, suf, by rw [List.append_assoc, hsuf, List.take_append_drop]⟩

/-- If the pattern is not a substring, `pyIn` reports `false`. -/
theorem pyIn_eq_false (old s : List Char) (h : ¬ old <:+: s) : pyIn old s = false := by
  cases hi : pyIn old s
  · rfl
  · exact absurd (substring_of_pyIn old s hi) h

/-- Claim C6: `str_replace` on a file whose content does not contain
`old_str` returns the not-found error and performs no write (first
conjunct, with the exact message); an occurrence index other than `-1`
that is not in range `1…count` likewise returns an error string (prefixed
with `Error`) and performs no write (second conjunct). -/
theorem C6_str_replace_absent_noop :
    (∀ (path : String) (old new content : List Char) (occurrence : Int),
      ¬ (old <:+: content) →
      str_replace path old new occurrence (some content) .ok =
        (none, "Error: Could not find the specified text in " ++ path)) ∧
    (∀ (path : String) (old new content : List Char) (occurrence : Int),
      occurrence ≠ -1 →
      ¬ (0 < occurrence ∧ occurrence ≤ (pyCount old content : Int)) →
      (str_replace path old new occurrence (some content) .ok).1 = none ∧
      py_startswith (str_replace path old new occurrence (some content) .ok).2 "Error" = true) := by
  constructor
  · intro path old new content occurrence h
    have hin : pyIn old content = false := pyIn_eq_false old content h
    simp [str_replace, hin]
  · intro path old new content occurrence hocc hrange
    cases hin : pyIn old content
    · refine ⟨by simp [str_replace, hin], ?_⟩
      simp only [str_replace, hin, if_pos]
      exact py_startswith_append "Error: Could not find the specified text in " path "Error"
        (by decide)
    · have hnot1 : ¬ (pyIn old content = false) := by simp [hin]
      refine ⟨?_, ?_⟩
      · simp only [str_replace, if_neg hnot1, if_neg hocc, if_neg hrange]
      · simp only [str_replace, if_neg hnot1, if_neg hocc, if_neg hrange]
        apply py_startswith_append
        apply py_startswith_append
        apply py_startswith_append
        exact py_startswith_append "Error: Invalid occurrence " (toString occurrence) "Error"
          (by decide)

/-- Witness for `C6_str_replace_absent_noop`: the pattern `"xy"` does not
occur in `"abc"`, and occurrence index 7 is out of range for one
occurrence of `"a"`. -/
theorem C6_witness :
    str_replace "f" ['x', 'y'] ['q'] (-1) (some ['a', 'b', 'c']) .ok =
        (none, "Error: Could not find the specified text in " ++ "f") ∧
      (str_replace "f" ['a'] ['q'] 7 (some ['a', 'b', 'c']) .ok).1 = none ∧
      py_startswith (str_replace "f" ['a'] ['q'] 7 (some ['a', 'b', 'c']) .ok).2 "Error" = true := by
  refine ⟨C6_str_replace_absent_noop.1 "f" ['x', 'y'] ['q'] ['a', 'b', 'c'] (-1) (by decide),
    C6_str_replace_absent_noop.2 "f" ['a'] ['q'] ['a', 'b', 'c'] 7 (by decide) ?_⟩
  intro h
  have h2 := h.2
  have hc : pyCount ['a'] ['a', 'b', 'c'] = 1 := by decide
  rw [hc] at h2
  omega

/-- Claim C7: on a file content with exactly 3 occurrences of a
(nonempty) `old_str`, the content splits as
`q1 ++ old ++ q2 ++ old ++ q3 ++ old ++ q4` with no further occurrence
inside any `qᵢ`; `str_replace` with `occurrence = 1` writes back the
content with only the first occurrence replaced (every other byte
identical), and with the default `occurrence = -1` it replaces all
three. -/
theorem C7_str_replace_occurrence (path : String) (old new content : List Char)
    (hold : old ≠ []) (hcount : pyCount old content = 3) :
    ∃ q1 q2 q3 q4 : List Char,
      content = q1 ++ old ++ q2 ++ old ++ q3 ++ old ++ q4 ∧
      (¬ old <:+: q1) ∧ (¬ old <:+: q2) ∧ (¬ old <:+: q3) ∧ (¬ old <:+: q4) ∧
      (str_replace path old new 1 (some content) .ok).1 =
        some (q1 ++ new ++ q2 ++ old ++ q3 ++ old ++ q4) ∧
      (str_replace path old new (-1) (some content) .ok).1 =
        some (q1 ++ new ++ q2 ++ new ++ q3 ++ new ++ q4) := by
  have hnenil : pySplit old content ≠ [] := pySplitF_ne_nil old content.length content
  have hlen1 : 1 ≤ (pySplit old content).length := List.length_pos.mpr hnenil
  have hcount' : (pySplit old content).length - 1 = 3 := by
    have h := hcount
    unfold pyCount at h
    rw [if_neg hold] at h
    exact h
  have hlen4 : (pySplit old content).length = 4 := by omega
  rcases hsp : pySplit old content with _ | ⟨q1, _ | ⟨q2, _ | ⟨q3, _ | ⟨q4, _ | ⟨q5, rest⟩⟩⟩⟩⟩ <;>
    rw [hsp] at hlen4 <;> simp at hlen4
  have hjoin : List.intercalate old (pySplit old content) = content :=
    intercalate_pySplitF old hold content.length content le_rfl
  rw [hsp] at hjoin
  rw [intercalate_cons_cons, intercalate_cons_cons, intercalate_cons_cons,
    intercalate_single] at hjoin
  have hmem : ∀ piece ∈ pySplit old content, ¬ old <:+: piece :=
    pySplitF_no_infix old hold content.length content le_rfl
  rw [hsp] at hmem
  have hin : pyIn old content = true := by
    apply pyIn_of_substring
    refine ⟨q1, q2 ++ old ++ q3 ++ old ++ q4, ?_⟩
    rw [← hjoin]
    simp [List.append_assoc]
  have hnot : ¬ (pyIn old content = false) := by simp [hin]
  have hcount3 : (pyCount old content : Int) = 3 := by
    rw [hcount]
    rfl
  refine ⟨q1, q2, q3, q4, by rw [← hjoin]; simp [List.append_assoc],
    hmem q1 (by simp), hmem q2 (by simp), hmem q3 (by simp), hmem q4 (by simp), ?_, ?_⟩
  · simp only [str_replace, if_neg hnot]
    rw [if_neg (by decide : ¬ ((1 : Int) = -1)),
      if_pos ⟨by decide, by rw [hcount3]; decide⟩, if_neg hold, hsp]
    simp [intercalate_single, intercalate_cons_cons, List.append_assoc]
  · simp only [str_replace, if_neg hnot, if_pos rfl]
    unfold pyReplaceAll
    rw [if_neg hold, hsp]
    rw [intercalate_cons_cons, intercalate_cons_cons, intercalate_cons_cons,
      intercalate_single]
    simp [List.append_assoc]

/-- Witness for `C7_str_replace_occurrence`: `"x"` occurs exactly 3 times
in `"axbxcx"`. -/
theorem C7_witness :
    ∃ q1 q2 q3 q4 : List Char,
      (['a', 'x', 'b', 'x', 'c', 'x'] : List Char) =
        q1 ++ ['x'] ++ q2 ++ ['x'] ++ q3 ++ ['x'] ++ q4 ∧
      (¬ ['x'] <:+: q1) ∧ (¬ ['x'] <:+: q2) ∧ (¬ ['x'] <:+: q3) ∧ (¬ ['x'] <:+: q4) ∧
      (str_replace "f" ['x'] ['y', 'y'] 1 (some ['a', 'x', 'b', 'x', 'c', 'x']) .ok).1 =
        some (q1 ++ ['y', 'y'] ++ q2 ++ ['x'] ++ q3 ++ ['x'] ++ q4) ∧
      (str_replace "f" ['x'] ['y', 'y'] (-1) (some ['a', 'x', 'b', 'x', 'c', 'x']) .ok).1 =
        some (q1 ++ ['y', 'y'] ++ q2 ++ ['y', 'y'] ++ q3 ++ ['y', 'y'] ++ q4) :=
  C7_str_replace_occurrence "f" ['x'] ['y', 'y'] ['a', 'x', 'b', 'x', 'c', 'x']
    (by decide) (by decide)

/-- A Bool that is not `false` is `true`. -/
theorem bool_eq_true_of_not_eq_false {b : Bool} (h : ¬ b = false) : b = true := by
  cases b
  · exact absurd rfl h
  · rfl

/-- Every failing `str_replace` dispatch through `execute_tool` yields an
`Error`-prefixed string (helper for claim C5). -/
theorem str_replace_result_error_prefix (input : Params) (env : ToolEnv)
    {p o n : String} {X : Int}
    (hb : binds_ok (tool_signature "str_replace").1 (tool_signature "str_replace").2 input = true)
    (hv1 : get_value input "path" = some (.str p))
    (hv2 : get_value input "old_str" = some (.str o))
    (hv3 : get_value input "new_str" = some (.str n))
    (h : execute_tool_ok "str_replace" input env = false)
    (hocc : (get_value input "occurrence" = none ∧ X = -1) ∨
            get_value input "occurrence" = some (.int X)) :
    py_startswith (str_replace p o.toList n.toList X env.sr_file env.sr_io).2 "Error" = true := by
  cases hio : env.sr_io with
  | raised m =>
    simp only [str_replace]
    apply py_startswith_append
    decide
  | ok =>
    cases hf : env.sr_file with
    | none =>
      simp only [str_replace]
      apply py_startswith_append
      apply py_startswith_append
      decide
    | some content =>
      by_cases hpy : pyIn o.toList content = false
      · simp only [str_replace, hpy, if_pos]
        apply py_startswith_append
        decide
      · have hpy' : pyIn o.toList content = true := bool_eq_true_of_not_eq_false hpy
        by_cases hX1 : X = -1
        · exfalso
          have hok : execute_tool_ok "str_replace" input env = true := by
            rcases hocc with ⟨hnone, _⟩ | hsome
            · simp [execute_tool_ok, hb, hv1, hv2, hv3, hio, hf, hnone]
              exact hpy'
            · subst hX1
              simp [execute_tool_ok, hb, hv1, hv2, hv3, hio, hf, hsome]
              exact hpy'
          rw [hok] at h
          exact Bool.noConfusion h
        · by_cases hX2 : 0 < X ∧ X ≤ (pyCount o.toList content : Int)
          · by_cases ho : o.toList = []
            · simp only [str_replace, if_neg hpy, if_neg hX1, if_pos hX2, if_pos ho]
              decide
            · exfalso
              rcases hocc with ⟨_, hXm⟩ | hsome
              · exact hX1 hXm
              have hok : execute_tool_ok "str_replace" input env = true := by
                simp [execute_tool_ok, hb, hv1, hv2, hv3, hio, hf, hsome, hX2.1]
                exact ⟨hpy', Or.inr ⟨hX2.2, ho⟩⟩
              rw [hok] at h
              exact Bool.noConfusion h
          · simp only [str_replace, if_neg hpy, if_neg hX1, if_neg hX2]
            apply py_startswith_append
            apply py_startswith_append
            apply py_startswith_append
            apply py_startswith_append
            decide

/-- Claim C5: `execute_tool` is a total function into result strings —
no exception crosses its boundary (every raising path of the source is a
`return` of a string in the embedding) — and on every failing invocation
(unknown tool, parameter-binding `TypeError`, value of the wrong type,
shell failure or timeout, I/O failure, missing file, absent pattern,
out-of-range occurrence) the returned string starts with the literal
`"Error"`, the sole error-signalling channel. -/
theorem C5_execute_tool_error_prefix (name : String) (input : Params) (env : ToolEnv)
    (h : execute_tool_ok name input env = false) :
    py_startswith (execute_tool name input env) "Error" = true := by
  unfold execute_tool
  split
  · apply py_startswith_append
    apply py_startswith_append
    decide
  rename_i hreg
  rw [not_not] at hreg
  split
  · rename_i hbf
    split
    · apply py_startswith_append
      apply py_startswith_append
      apply py_startswith_append
      decide
    · apply py_startswith_append
      apply py_startswith_append
      apply py_startswith_append
      apply py_startswith_append
      apply py_startswith_append
      decide
  rename_i hbn
  have hb : binds_ok (tool_signature name).1 (tool_signature name).2 input = true :=
    bool_eq_true_of_not_eq_false hbn
  split
  · rename_i hcs
    subst hcs
    cases hv : get_value input "command" with
    | none =>
      simp only [hv]
      apply py_startswith_append
      decide
    | some v =>
      cases v with
      | int i =>
        simp only [hv]
        apply py_startswith_append
        decide
      | str c =>
        simp only [hv]
        cases hs : env.shell with
        | completed rc o e =>
          by_cases hrc : rc = 0
          · exfalso
            have hok : execute_tool_ok "call_shell" input env = true := by
              simp [execute_tool_ok, hb, hv, hs, hrc]
            rw [hok] at h
            exact Bool.noConfusion h
          · simp only [call_shell]
            rw [if_neg hrc]
            apply py_startswith_append
            apply py_startswith_append
            apply py_startswith_append
            decide
        | timedOut =>
          simp only [call_shell]
          decide
        | raised m =>
          simp only [call_shell]
          apply py_startswith_append
          decide
  split
  · rename_i hwf
    subst hwf
    cases hv1 : get_value input "path" with
    | none =>
      simp only [hv1]
      apply py_startswith_append
      decide
    | some v1 =>
      cases hv2 : get_value input "content" with
      | none =>
        simp only [hv1, hv2]
        cases v1 <;> (apply py_startswith_append; decide)
      | some v2 =>
        cases v1 with
        | int i =>
          simp only [hv1, hv2]
          cases v2 <;> (apply py_startswith_append; decide)
        | str p =>
          cases v2 with
          | int i =>
            simp only [hv1, hv2]
            apply py_startswith_append
            decide
          | str c =>
            simp only [hv1, hv2]
            cases hio : env.write_io with
            | ok =>
              exfalso
              have hok : execute_tool_ok "write_file" input env = true := by
                simp [execute_tool_ok, hb, hv1, hv2, hio]
              rw [hok] at h
              exact Bool.noConfusion h
            | raised m =>
              simp only [write_file]
              apply py_startswith_append
              decide
  split
  · rename_i hsr
    subst hsr
    cases hv1 : get_value input "path" with
    | none =>
      simp only [hv1]
      apply py_startswith_append
      decide
    | some v1 =>
      cases hv2 : get_value input "old_str" with
      | none =>
        simp only [hv1, hv2]
        cases v1 <;> (apply py_startswith_append; decide)
      | some v2 =>
        cases hv3 : get_value input "new_str" with
        | none =>
          simp only [hv1, hv2, hv3]
          cases v1 <;> cases v2 <;> (apply py_startswith_append; decide)
        | some v3 =>
          cases v1 with
          | int i =>
            simp only [hv1, hv2, hv3]
            cases v2 <;> cases v3 <;> (apply py_startswith_append; decide)
          | str p =>
            cases v2 with
            | int i =>
              simp only [hv1, hv2, hv3]
              cases v3 <;> (apply py_startswith_append; decide)
            | str o =>
              cases v3 with
              | int i =>
                simp only [hv1, hv2, hv3]
                apply py_startswith_append
                decide
              | str n =>
                simp only [hv1, hv2, hv3]
                cases hocc : get_value input "occurrence" with
                | none =>
                  exact str_replace_result_error_prefix input env hb hv1 hv2 hv3 h
                    (Or.inl ⟨hocc, rfl⟩)
                | some vo =>
                  cases vo with
                  | str so =>
                    apply py_startswith_append
                    decide
                  | int i =>
                    exact str_replace_result_error_prefix input env hb hv1 hv2 hv3 h
                      (Or.inr hocc)
  rename_i hn1 hn2 hn3
  have hfo : name = "final_output" := by
    rcases hreg with h' | h' | h' | h'
    · exact absurd h' hn1
    · exact absurd h' hn2
    · exact absurd h' hn3
    · exact h'
  subst hfo
  cases hv : get_value input "summary" with
  | none =>
    simp only [hv]
    apply py_startswith_append
    decide
  | some v =>
    cases v with
    | int i =>
      simp only [hv]
      apply py_startswith_append
      decide
    | str s =>
      simp only [hv]
      cases hio : env.fo_io with
      | ok =>
        exfalso
        have hok : execute_tool_ok "final_output" input env = true := by
          simp [execute_tool_ok, hb, hv, hio]
        rw [hok] at h
        exact Bool.noConfusion h
      | raised m =>
        simp only [final_output]
        apply py_startswith_append
        decide

/-- Witness for `C5_execute_tool_error_prefix`: invoking an unregistered
tool name fails and yields an `Error`-prefixed result. -/
theorem C5_witness :
    execute_tool_ok "frobnicate" []
        ⟨.completed 0 "" "", ⟨[], []⟩, .ok, none, .ok, ⟨none, []⟩, .ok, [], "wd", "te", "me"⟩
        = false ∧
      py_startswith
        (execute_tool "frobnicate" []
          ⟨.completed 0 "" "", ⟨[], []⟩, .ok, none, .ok, ⟨none, []⟩, .ok, [], "wd", "te", "me"⟩)
        "Error" = true :=
  ⟨by decide,
   C5_execute_tool_error_prefix "frobnicate" []
     ⟨.completed 0 "" "", ⟨[], []⟩, .ok, none, .ok, ⟨none, []⟩, .ok, [], "wd", "te", "me"⟩
     (by decide)⟩

/-- Claim C1 is false as stated: on a turn with at least one successful
tool call and no failure (`current_errors = []`, `has_tool_use = true`),
`handle_error_temperature_adjustment` called at the baseline temperature
`0.0` with a non-empty error history returns that history *unchanged*
rather than an empty one — the reset is guarded by `temperature > 0`.
The input is reachable: one isolated failure leaves the history at one
entry with temperature still `0.0`. -/
theorem C1_counterexample :
    handle_error_temperature_adjustment []
      [(("call_shell" : String), ([("command", Value.str "ls")] : Params))] true 0 2
      ≠ ((0 : ℚ), ([] : List ErrEntry)) := by
  decide

/-- Claim C1, amended: on a turn with no failures — whether it had
successful tool calls (`has_tool_use = true`) or no tool call at all —
`handle_error_temperature_adjustment` resets the temperature to `0.0` and
clears the error history *when the incoming temperature is elevated*;
when the incoming temperature is already at the baseline `0.0` it returns
the temperature and the error history unchanged. -/
theorem C1_amended (error_history : List ErrEntry) (has_tool_use : Bool)
    (temperature : ℚ) (k : Nat) :
    handle_error_temperature_adjustment [] error_history has_tool_use temperature k =
      if 0 < temperature then ((0 : ℚ), ([] : List ErrEntry))
      else (temperature, error_history) := by
  unfold handle_error_temperature_adjustment
  cases has_tool_use <;> simp

/-- Claim C3 is false as stated: quantified over *every* call with a
non-empty failure list, the claim overlooks the final reset branch of the
function.  With `has_tool_use = false` and an elevated temperature, the
appended history is discarded and the temperature is reset to `0.0`
instead of being returned unchanged.  (The session driver never produces
such a call: failures imply tool use, see `C3_amended`.) -/
theorem C3_counterexample :
    handle_error_temperature_adjustment
      [(("call_shell" : String), ([("command", Value.str "ls")] : Params))]
      [(("call_shell" : String), ([("command", Value.str "ls")] : Params))] false 1 2
      ≠ ((1 : ℚ),
         ([(("call_shell" : String), ([("command", Value.str "ls")] : Params)),
           (("call_shell" : String), ([("command", Value.str "ls")] : Params))] : List ErrEntry)) := by
  decide

/-- Claim C3, amended with the condition `has_tool_use = true` — which
holds for every call the session driver makes with a non-empty failure
list, since `process_message_content` only records failures for tool
invocations (first conjunct).  Under that condition, with the
repeated-error threshold 2 wired in by the driver: the failures are
appended to the history; if the two most recent entries of the appended
history are structurally identical and the incoming temperature is the
baseline `0.0`, the returned temperature is exactly `1.0`; in every other
case — including an already-elevated temperature while identical failures
continue — the temperature is returned unchanged, so escalation happens
exactly once per run of identical failures. -/
theorem C3_amended :
    (∀ (ex : Executor) (blocks : List ContentBlock),
      (process_message_content ex blocks).current_errors ≠ [] →
      (process_message_content ex blocks).has_tool_use = true) ∧
    (∀ (current_errors error_history : List ErrEntry) (temperature : ℚ),
      current_errors ≠ [] →
      handle_error_temperature_adjustment current_errors error_history true temperature 2 =
        (if 2 ≤ (error_history ++ current_errors).length ∧
            all_identical (lastN 2 (error_history ++ current_errors)) = true ∧
            temperature = 0
         then (1 : ℚ) else temperature,
         error_history ++ current_errors)) := by
  constructor
  · intro ex blocks h
    by_contra hcon
    have hfalse : (process_message_content ex blocks).has_tool_use = false := by
      cases hh : (process_message_content ex blocks).has_tool_use
      · rfl
      · exact absurd hh hcon
    exact h (foldl_process_no_tool_use_no_errors ex blocks _ (fun _ => rfl) hfalse)
  · intro current_errors error_history temperature hne
    unfold handle_error_temperature_adjustment
    by_cases h1 : 2 ≤ error_history.length + current_errors.length
    <;> by_cases h2 : all_identical (lastN 2 (error_history ++ current_errors)) = true
    <;> by_cases h3 : temperature = 0
    <;> simp [hne, h1, h2, h3]

/-- Witness for `C3_amended` (second part has hypotheses): two identical
shell failures at baseline temperature escalate to `1.0` with both
entries appended. -/
theorem C3_amended_witness :
    handle_error_temperature_adjustment
      [(("call_shell" : String), ([("command", Value.str "ls")] : Params))]
      [(("call_shell" : String), ([("command", Value.str "ls")] : Params))] true 0 2 =
      ((1 : ℚ),
       [(("call_shell" : String), ([("command", Value.str "ls")] : Params)),
        (("call_shell" : String), ([("command", Value.str "ls")] : Params))]) := by
  have h := C3_amended.2
    [(("call_shell" : String), ([("command", Value.str "ls")] : Params))]
    [(("call_shell" : String), ([("command", Value.str "ls")] : Params))]
    0 (by decide)
  rw [h]
  decide

end Lleam
